import Mathlib

/-!
# Broadcast endpoint (`api/broadcast.js`): contact resolution and throttled sending

A shallow embedding of `getResendClient`, `getAllContacts`, `broadcastEmail` and the
exported request handler of `api/broadcast.js`.

Modelling conventions.

* Provider calls and pacing delays are the observable effects of a run; they are
  recorded, in program order, in a list of `Event`s.  Console output is not recorded.
* The provider is a deterministic oracle: every call either returns a response or
  throws.  A call that returns, returns a response object; a value that is thrown is an
  error object.
* Values returned by the provider are JSON values.  Elements of the arrays the code
  iterates are records (`Audience`, `Contact`); a non-array value met where the code
  expects an array carries no positive `length`.
* `await new Promise(resolve => setTimeout(resolve, 600))` is the event `Event.delay 600`.
* The value `req.body` of a request is `undefined`, `null` or the parsed JSON object,
  whose members are strings when present.
-/

namespace Broadcast

/-! ## Data model -/

/-- An audience record of the provider: the code reads `audience.id` and `audience.name`. -/
structure Audience where
  id : String
  name : String
deriving DecidableEq, Repr

/-- A contact record: `email` is the identity key, the other provider fields are carried
along untouched. -/
structure Contact where
  email : String
  fields : List (String × String)
deriving DecidableEq, Repr

/-! ## The insertion-ordered mapping behind `new Map(...)` -/

/-- The method `Map.prototype.set`: an existing key keeps its position and takes the new value, a new
key is appended at the end. -/
def mapSet {κ ν : Type} [DecidableEq κ] : List (κ × ν) → κ → ν → List (κ × ν)
  | [], k, v => [(k, v)]
  | (k', v') :: rest, k, v =>
    if k' = k then (k', v) :: rest else (k', v') :: mapSet rest k v

/-- The constructor `new Map(entries)`: the entries are inserted one after the other, in order. -/
def newMap {κ ν : Type} [DecidableEq κ] (entries : List (κ × ν)) : List (κ × ν) :=
  entries.foldl (fun m e => mapSet m e.1 e.2) []

/-- The expression `Array.from(map.values())`. -/
def mapValues {κ ν : Type} (m : List (κ × ν)) : List ν :=
  m.map Prod.snd

/-- Lines 90-92 of `getAllContacts`:
`Array.from(new Map(allContacts.map(contact => [contact.email, contact])).values())`. -/
def uniqueContacts (allContacts : List Contact) : List Contact :=
  mapValues (newMap (allContacts.map fun contact => (contact.email, contact)))

/-! ## JSON values of a send response -/

/-- A JSON value as the provider returns it inside a send response or an error object.
Numbers are integers here, so `NaN` does not occur. -/
inductive JSVal where
  | undefined
  | null
  | bool (b : Bool)
  | num (n : Int)
  | str (s : String)
  | arr (items : List JSVal)
  | obj (fields : List (String × JSVal))

namespace JSVal

/-- JavaScript truthiness (`if (v)`, `!v`, `v && ...`, `v || ...`). -/
def truthy : JSVal → Bool
  | undefined => false
  | null => false
  | bool b => b
  | num n => decide (n ≠ 0)
  | str s => decide (s ≠ "")
  | arr _ => true
  | obj _ => true

/-- The test `typeof v === 'string'`. -/
def isString : JSVal → Bool
  | str _ => true
  | _ => false

/-- Optional property read `v?.key` for a key other than `length`: `undefined` on
`undefined` and `null`, the stored field on an object, `undefined` on every other value. -/
def optField (v : JSVal) (key : String) : JSVal :=
  match v with
  | obj fields =>
    match fields.find? (fun f => f.1 == key) with
    | some f => f.2
    | none => undefined
  | _ => undefined

/-- The operator `a || b`. -/
def or (a b : JSVal) : JSVal :=
  if a.truthy then a else b

end JSVal

/-- Truthiness of a value that is a string when present (`undefined` when absent). -/
def truthyStr : Option String → Bool
  | some s => decide (s ≠ "")
  | none => false

/-! ## List responses of the provider -/

/-- The value found where the code looks for an array of records: an array, or any
other value (`undefined`, `null`, a boolean, a number, ...) that has no positive
`length`; of such a value the code observes the truthiness only. -/
inductive Slot (α : Type) where
  | array (items : List α)
  | other (truthy : Bool)

/-- The `data` member of a list response: an array, an object with its members `data`
and `contacts` (an absent member is `Slot.other false`), or a primitive value
(`undefined` and `null` included), of which only the truthiness is observed. -/
inductive Payload (α : Type) where
  | array (items : List α)
  | object (data : Slot α) (contacts : Slot α)
  | other (truthy : Bool)

namespace Slot

variable {α : Type}

/-- Truthiness: arrays are truthy, also when empty. -/
def truthy : Slot α → Bool
  | array _ => true
  | other b => b

/-- The test `Array.isArray(v)`. -/
def isArray : Slot α → Bool
  | array _ => true
  | other _ => false

/-- The elements a spread `...v` or a `for (... of v)` runs through. -/
def items : Slot α → List α
  | array xs => xs
  | other _ => []

/-- The expression `v || []`. -/
def orEmpty (v : Slot α) : Slot α :=
  if v.truthy then v else array []

/-- The test `v.length > 0`. -/
def lengthPos : Slot α → Bool
  | array xs => decide (xs.length > 0)
  | other _ => false

end Slot

namespace Payload

variable {α : Type}

/-- Truthiness of `response.data`. -/
def truthy : Payload α → Bool
  | array _ => true
  | object _ _ => true
  | other b => b

/-- The test `Array.isArray(response.data)`. -/
def isArray : Payload α → Bool
  | array _ => true
  | _ => false

/-- The value `response.data` seen as a slot (used where the payload itself is taken as
the array). -/
def asSlot : Payload α → Slot α
  | array xs => Slot.array xs
  | object _ _ => Slot.other true
  | other b => Slot.other b

/-- The expression `response.data?.data`. -/
def optData : Payload α → Slot α
  | object d _ => d
  | _ => Slot.other false

/-- The expression `response.data.contacts`, read on a truthy payload. -/
def contacts : Payload α → Slot α
  | object _ c => c
  | _ => Slot.other false

end Payload

/-! ## Provider, effects, environment -/

/-- An error object that a call throws: the code reads `err.message`, `err.response`
and `err.stack`. -/
structure Thrown where
  message : JSVal
  response : JSVal
  stack : JSVal

/-- The expression `new Error(msg)` as far as the code reads it. -/
def mkError (msg : String) : Thrown :=
  { message := JSVal.str msg, response := JSVal.undefined, stack := JSVal.undefined }

/-- Outcome of one awaited provider call. -/
inductive CallResult (α : Type) where
  | returned (response : α)
  | threw (err : Thrown)

/-- One payload of `batchEmails`: the members `from`, `to`, `subject` and `html`. -/
structure Email where
  from_ : String
  to_ : String
  subject : String
  html : String
deriving DecidableEq, Repr

/-- The response object of `client.emails.send`: its members `data`, `id` and `error`
(an absent member is `undefined`). -/
structure SendResponse where
  data : JSVal
  id : JSVal
  error : JSVal

/-- The provider as the code calls it.  `contactsList k audienceId` is the answer to the
`k`-th call of `client.contacts.list` of a run (`audienceId = none` for the call without
argument), `emailsSend i email` the answer to the `i`-th call of `client.emails.send`. -/
structure Provider where
  audiencesList : CallResult (Payload Audience)
  contactsList : Nat → Option String → CallResult (Payload Contact)
  emailsSend : Nat → Email → CallResult SendResponse

/-- Observable effects of a run, in program order. -/
inductive Event where
  | audiencesList
  | contactsList (audienceId : Option String)
  | emailsSend (email : Email)
  | delay (ms : Nat)
deriving DecidableEq, Repr

/-- The part of `process.env` the code reads. -/
structure Env where
  RESEND_API_KEY : Option String
  FROM_EMAIL : Option String

/-- Result of running an async function: what it resolves to or rejects with, the
module-level client cache `resend` afterwards (`true` once constructed), and the effects
in order. -/
structure Run (α : Type) where
  result : Except Thrown α
  resend : Bool
  trace : List Event

/-! ## `getResendClient` and `getAllContacts` -/

/-- The fixed pacing delay, in milliseconds. -/
def pacing : Nat := 600

/-- Lines 5-14.  `resend` is the module-level cache (`true` once a client exists); the
result is the cache after the call, or the error thrown when the key is missing. -/
def getResendClient (env : Env) (resend : Bool) : Except Thrown Bool :=
  if !resend then
    if !truthyStr env.RESEND_API_KEY then
      Except.error (mkError "RESEND_API_KEY environment variable is not set")
    else
      Except.ok true
  else
    Except.ok resend

/-- Lines 27-35: the audience-list call.  Returns the value of `audiences` and the
effects. -/
def fetchAudiences (p : Provider) : Slot Audience × List Event :=
  match p.audiencesList with
  | CallResult.returned data =>
    (data.optData.orEmpty, [Event.audiencesList, Event.delay pacing])
  | CallResult.threw _ =>
    (Slot.array [], [Event.audiencesList])

/-- Lines 50-62: what the response of a per-audience call adds to `allContacts`. -/
def pushAudienceContacts (data : Payload Contact) (allContacts : List Contact) :
    List Contact :=
  if data.optData.truthy && data.optData.isArray then
    allContacts ++ data.optData.items
  else if data.truthy then
    let contacts := if data.isArray then data.asSlot else data.contacts.orEmpty
    if contacts.lengthPos then allContacts ++ contacts.items else allContacts
  else
    allContacts

/-- Lines 79-83: what the response of the direct call adds to `allContacts`. -/
def pushDirectContacts (data : Payload Contact) (allContacts : List Contact) :
    List Contact :=
  if data.optData.truthy && data.optData.isArray then
    allContacts ++ data.optData.items
  else if data.isArray then
    allContacts ++ data.asSlot.items
  else
    allContacts

/-- Lines 39-67: the loop over the audiences.  `k` counts the contact-list calls made so
far; the state is `allContacts` and the effects so far. -/
def audienceLoop (p : Provider) :
    List Audience → Nat → List Contact × List Event → List Contact × List Event
  | [], _, st => st
  | audience :: rest, k, (allContacts, trace) =>
    match p.contactsList k (some audience.id) with
    | CallResult.returned data =>
      audienceLoop p rest (k + 1)
        (pushAudienceContacts data allContacts,
         trace ++ [Event.contactsList (some audience.id), Event.delay pacing])
    | CallResult.threw _ =>
      audienceLoop p rest (k + 1)
        (allContacts, trace ++ [Event.contactsList (some audience.id)])

/-- Lines 71-86: the direct contact listing, tried when there is no audience. -/
def directContacts (p : Provider) (st : List Contact × List Event) :
    List Contact × List Event :=
  match p.contactsList 0 none with
  | CallResult.returned data =>
    (pushDirectContacts data st.1,
     st.2 ++ [Event.contactsList none, Event.delay pacing])
  | CallResult.threw _ =>
    (st.1, st.2 ++ [Event.contactsList none])

/-- Lines 20-100.  The outer `catch` rethrows, so an error of `getResendClient` is the
result of the run. -/
def getAllContacts (env : Env) (resend : Bool) (p : Provider) : Run (List Contact) :=
  match getResendClient env resend with
  | Except.error e => { result := Except.error e, resend := resend, trace := [] }
  | Except.ok client =>
    let fetched := fetchAudiences p
    let audiences := fetched.1
    let st :=
      if audiences.lengthPos then
        audienceLoop p audiences.items 0 ([], fetched.2)
      else
        directContacts p ([], fetched.2)
    { result := Except.ok (uniqueContacts st.1), resend := client, trace := st.2 }

/-! ## `broadcastEmail` -/

/-- The member `status` of a send result. -/
inductive Status where
  | success
  | failed
deriving DecidableEq, Repr

/-- One entry of `results`.  Members that the code does not set are `none`. -/
structure SendResult where
  email : String
  status : Status
  id : Option JSVal
  error : Option JSVal
  note : Option String
  response : Option SendResponse
  details : Option JSVal

/-- The object `broadcastEmail` resolves to.  The short-circuit outcome has neither
`failed` nor `results`. -/
structure Outcome where
  success : Bool
  message : String
  sent : Nat
  failed : Option Nat
  total : Nat
  results : Option (List SendResult)

/-- State of the send loop: the two counters, `results`, and the effects so far. -/
structure LoopState where
  successCount : Nat
  failureCount : Nat
  results : List SendResult
  trace : List Event

/-- Lines 153-166: the values of `emailId` and `responseError` after the first chain of
tests (both start as `null`). -/
def readResponse (emailResponse : SendResponse) : JSVal × JSVal :=
  if (emailResponse.data.optField "id").truthy then
    (emailResponse.data.optField "id", JSVal.null)
  else if emailResponse.id.truthy then
    (emailResponse.id, JSVal.null)
  else if emailResponse.data.truthy && emailResponse.data.isString then
    (emailResponse.data, JSVal.null)
  else if emailResponse.error.truthy then
    (JSVal.null, emailResponse.error)
  else
    (JSVal.null, JSVal.null)

/-- Lines 168-208: the counters and `results` after a send call returned
`emailResponse`. -/
def recordResponse (email : Email) (emailResponse : SendResponse) (st : LoopState) :
    LoopState :=
  let emailId := (readResponse emailResponse).1
  let responseError := (readResponse emailResponse).2
  if emailResponse.error.truthy || responseError.truthy then
    { st with
      failureCount := st.failureCount + 1
      results := st.results ++ [
        { email := email.to_, status := Status.failed, id := none,
          error := some (((emailResponse.error.optField "message").or responseError).or
            (JSVal.str "Unknown error from API")),
          note := none, response := none, details := none }] }
  else if emailId.truthy then
    { st with
      successCount := st.successCount + 1
      results := st.results ++ [
        { email := email.to_, status := Status.success, id := some emailId,
          error := none, note := none, response := none, details := none }] }
  else if emailResponse.data.truthy && !emailResponse.error.truthy then
    { st with
      successCount := st.successCount + 1
      results := st.results ++ [
        { email := email.to_, status := Status.success, id := some (JSVal.str "sent"),
          error := none, note := some "Email sent but ID not in expected format",
          response := none, details := none }] }
  else
    { st with
      failureCount := st.failureCount + 1
      results := st.results ++ [
        { email := email.to_, status := Status.failed, id := none,
          error := some (JSVal.str "No email ID returned in response"),
          note := none, response := some emailResponse, details := none }] }

/-- Lines 215-224: the counters and `results` after a send call threw `err`. -/
def recordThrown (email : Email) (err : Thrown) (st : LoopState) : LoopState :=
  { st with
    failureCount := st.failureCount + 1
    results := st.results ++ [
      { email := email.to_, status := Status.failed, id := none,
        error := some (err.message.or (JSVal.str "Unknown error")),
        note := none, response := none,
        details := some ((err.response.optField "data").or err.stack) }] }

/-- Lines 145-224: one iteration of the send loop, for index `i` of `n` payloads. -/
def sendStep (p : Provider) (n i : Nat) (email : Email) (st : LoopState) : LoopState :=
  let called := { st with trace := st.trace ++ [Event.emailsSend email] }
  match p.emailsSend i email with
  | CallResult.returned emailResponse =>
    let recorded := recordResponse email emailResponse called
    if i < n - 1 then
      { recorded with trace := recorded.trace ++ [Event.delay pacing] }
    else
      recorded
  | CallResult.threw err =>
    recordThrown email err called

/-- Lines 144-225: the loop `for (let i = 0; i < batchEmails.length; i++)`, entered at
index `i` with the payloads from `i` on still to send. -/
def sendLoop (p : Provider) (n : Nat) : List Email → Nat → LoopState → LoopState
  | [], _, st => st
  | email :: rest, i, st => sendLoop p n rest (i + 1) (sendStep p n i email st)

/-- Line 120: the sender header. -/
def fromField (fromEmail : String) (fromName : Option String) : String :=
  if truthyStr fromName then fromName.getD "" ++ " <" ++ fromEmail ++ ">" else fromEmail

/-- Lines 123-128: the payloads, one per contact. -/
def batchEmails (contacts : List Contact) (frm subject body : String) : List Email :=
  contacts.map fun contact =>
    { from_ := frm, to_ := contact.email, subject := subject, html := body }

/-- Lines 105-239.  The outer `catch` rethrows. -/
def broadcastEmail (env : Env) (resend : Bool) (p : Provider)
    (subject body fromEmail : String) (fromName : Option String) : Run Outcome :=
  let resolved := getAllContacts env resend p
  match resolved.result with
  | Except.error e =>
    { result := Except.error e, resend := resolved.resend, trace := resolved.trace }
  | Except.ok contacts =>
    if contacts.length = 0 then
      { result := Except.ok
          { success := false, message := "No contacts found in Resend account",
            sent := 0, failed := none, total := 0, results := none },
        resend := resolved.resend, trace := resolved.trace }
    else
      let frm := fromField fromEmail fromName
      let emails := batchEmails contacts frm subject body
      match getResendClient env resolved.resend with
      | Except.error e =>
        { result := Except.error e, resend := resolved.resend, trace := resolved.trace }
      | Except.ok client =>
        let st := sendLoop p emails.length emails 0
          { successCount := 0, failureCount := 0, results := [],
            trace := resolved.trace ++ [Event.delay pacing] }
        { result := Except.ok
            { success := true,
              message := "Broadcast completed: " ++ toString st.successCount ++ " sent, "
                ++ toString st.failureCount ++ " failed",
              sent := st.successCount, failed := some st.failureCount,
              total := contacts.length, results := some st.results },
          resend := client, trace := st.trace }

/-! ## The exported handler -/

/-- The parsed JSON object `req.body` as far as the handler destructures it; each
member is a string when present. -/
structure RequestBody where
  subject : Option String
  body : Option String
  fromEmail : Option String
  fromName : Option String

/-- The value of `req.body`: `undefined` or `null` when the request came without a
parsed body, the parsed JSON object otherwise. -/
inductive ParsedBody where
  | undefined
  | null
  | object (members : RequestBody)

/-- The request as far as the handler reads it. -/
structure Request where
  method : String
  body : ParsedBody

/-- Line 270: the destructuring `const { subject, body, fromEmail, fromName } = req.body`.
On `undefined` and `null` it throws a `TypeError` (message as the Node.js runtime words
it). -/
def destructureBody : ParsedBody → Except Thrown RequestBody
  | ParsedBody.object members => Except.ok members
  | ParsedBody.undefined => Except.error (mkError
      "Cannot destructure property 'subject' of 'req.body' as it is undefined.")
  | ParsedBody.null => Except.error (mkError
      "Cannot destructure property 'subject' of 'req.body' as it is null.")

/-- What the handler sends back as body. -/
inductive ResponseBody where
  | ended
  | error (error : String)
  | internalError (error : String) (message : JSVal)
  | outcome (result : Outcome)

/-- The response after the handler finished. -/
structure HttpResponse where
  headers : List (String × String)
  status : Nat
  body : ResponseBody

/-- Lines 246-248: the three CORS headers. -/
def corsHeaders : List (String × String) :=
  [("Access-Control-Allow-Origin", "*"),
   ("Access-Control-Allow-Methods", "POST, OPTIONS"),
   ("Access-Control-Allow-Headers", "Content-Type")]

/-- Lines 244-298: the exported handler.  Returns the response, the client cache
afterwards and the effects.  An error thrown inside the `try` of lines 269-290 (by the
destructuring of `req.body` or by `broadcastEmail`) is answered by the `catch` of lines
291-296. -/
def handler (env : Env) (resend : Bool) (p : Provider) (req : Request) :
    HttpResponse × Bool × List Event :=
  if req.method = "OPTIONS" then
    ({ headers := corsHeaders, status := 200, body := ResponseBody.ended }, resend, [])
  else if req.method ≠ "POST" then
    ({ headers := corsHeaders, status := 405,
       body := ResponseBody.error "Method not allowed. Use POST." }, resend, [])
  else if !truthyStr env.RESEND_API_KEY then
    ({ headers := corsHeaders, status := 500,
       body := ResponseBody.error "RESEND_API_KEY environment variable is not set" },
     resend, [])
  else
    match destructureBody req.body with
    | Except.error error =>
      ({ headers := corsHeaders, status := 500,
         body := ResponseBody.internalError "Internal server error" error.message },
       resend, [])
    | Except.ok members =>
      if !truthyStr members.subject || !truthyStr members.body then
        ({ headers := corsHeaders, status := 400,
           body := ResponseBody.error
             "Missing required fields: subject and body are required" }, resend, [])
      else
        let senderEmail := if truthyStr members.fromEmail then members.fromEmail
          else env.FROM_EMAIL
        if !truthyStr senderEmail then
          ({ headers := corsHeaders, status := 400,
             body := ResponseBody.error
               "fromEmail is required (either in request body or FROM_EMAIL environment variable)" },
           resend, [])
        else
          let run := broadcastEmail env resend p (members.subject.getD "")
            (members.body.getD "") (senderEmail.getD "") members.fromName
          match run.result with
          | Except.ok result =>
            ({ headers := corsHeaders, status := 200,
               body := ResponseBody.outcome result }, run.resend, run.trace)
          | Except.error error =>
            ({ headers := corsHeaders, status := 500,
               body := ResponseBody.internalError "Internal server error" error.message },
             run.resend, run.trace)

/-! ## Auxiliary definitions for the statements -/

/-- The entries handed to `new Map` by `uniqueContacts`. -/
def emailEntries (allContacts : List Contact) : List (String × Contact) :=
  allContacts.map fun contact => (contact.email, contact)

/-- The identifier the specification calls recognized: `data.id`, or `id`, or `data`
being a (non-empty) string, in this order. -/
def recognizedId (r : SendResponse) : Option JSVal :=
  if (r.data.optField "id").truthy then some (r.data.optField "id")
  else if r.id.truthy then some r.id
  else if r.data.truthy && r.data.isString then some r.data
  else none

/-- The error recorded for a response with an error member: its `message`; without a
message, the error value itself when no identifier was recognized, and the text
`Unknown error from API` otherwise. -/
def errorText (r : SendResponse) : JSVal :=
  if (r.error.optField "message").truthy then r.error.optField "message"
  else if (recognizedId r).isNone then r.error
  else JSVal.str "Unknown error from API"

/-- The classification of a returned response in the priority order of the
specification: (a) error member, (b) recognized identifier, (c) payload present,
(d) nothing. -/
def classifyByPriority (to_ : String) (r : SendResponse) : SendResult :=
  if r.error.truthy then
    { email := to_, status := Status.failed, id := none, error := some (errorText r),
      note := none, response := none, details := none }
  else
    match recognizedId r with
    | some emailId =>
      { email := to_, status := Status.success, id := some emailId, error := none,
        note := none, response := none, details := none }
    | none =>
      if r.data.truthy then
        { email := to_, status := Status.success, id := some (JSVal.str "sent"),
          error := none, note := some "Email sent but ID not in expected format",
          response := none, details := none }
      else
        { email := to_, status := Status.failed, id := none,
          error := some (JSVal.str "No email ID returned in response"),
          note := none, response := some r, details := none }

/-- The result recorded for a send call that threw `err`. -/
def thrownResult (to_ : String) (err : Thrown) : SendResult :=
  { email := to_, status := Status.failed, id := none,
    error := some (err.message.or (JSVal.str "Unknown error")),
    note := none, response := none,
    details := some ((err.response.optField "data").or err.stack) }

/-- The one result that the `i`-th send call, for `email`, leaves in `results`. -/
def resultOfSend (p : Provider) (i : Nat) (email : Email) : SendResult :=
  match p.emailsSend i email with
  | CallResult.returned r => classifyByPriority email.to_ r
  | CallResult.threw err => thrownResult email.to_ err

/-- Whether a call returned (rather than threw). -/
def CallResult.isReturned {α : Type} : CallResult α → Bool
  | CallResult.returned _ => true
  | CallResult.threw _ => false

/-- The effects of the `i`-th of `n` iterations of the send loop: the send call, and a
pacing delay when the call returned and the iteration is not the last. -/
def eventsOfSend (p : Provider) (n i : Nat) (email : Email) : List Event :=
  Event.emailsSend email ::
    (if (p.emailsSend i email).isReturned && decide (i < n - 1)
      then [Event.delay pacing] else [])

/-- Whether an effect is a send call. -/
def Event.isSend : Event → Bool
  | Event.emailsSend _ => true
  | _ => false

/-- Whether an effect is a pacing delay. -/
def Event.isDelay : Event → Bool
  | Event.delay _ => true
  | _ => false

/-- Whether an effect is a provider list call (audience list or contact list). -/
def Event.isListCall : Event → Bool
  | Event.audiencesList => true
  | Event.contactsList _ => true
  | _ => false

/-- The interpretation rule of the specification for a contact-list response: the nested
array `data.data` when it is an array; otherwise the payload `data` itself when it is an
array; otherwise the member `data.contacts` when present; otherwise no contact. -/
def interpretListResponse (data : Payload Contact) : List Contact :=
  match data with
  | Payload.object (Slot.array xs) _ => xs
  | Payload.array xs => xs
  | Payload.object (Slot.other _) (Slot.array xs) => xs
  | _ => []

/-- The same rule without its third clause: the nested array `data.data`, otherwise the
payload itself when it is an array, otherwise no contact. -/
def interpretWithoutNamedField (data : Payload Contact) : List Contact :=
  match data with
  | Payload.object (Slot.array xs) _ => xs
  | Payload.array xs => xs
  | _ => []

/-- The audiences that the audience-list call yields: the array `data.data` of a call
that returned, and none when the call threw or returned anything else. -/
def listedAudiences (p : Provider) : List Audience :=
  match p.audiencesList with
  | CallResult.returned (Payload.object (Slot.array xs) _) => xs
  | _ => []

/-- The effects of one list call: the call, followed by a pacing delay when it
returned. -/
def eventsOfListCall {α : Type} (call : Event) (r : CallResult α) : List Event :=
  call :: (if r.isReturned then [Event.delay pacing] else [])

/-- What the `k`-th contact-list call, for `audience`, contributes: the contacts read
from its response by the rule, and nothing when the call threw. -/
def audienceContribution (p : Provider) (k : Nat) (audience : Audience) : List Contact :=
  match p.contactsList k (some audience.id) with
  | CallResult.returned data => interpretListResponse data
  | CallResult.threw _ => []

/-- What the direct contact-list call contributes: the contacts read from its response
(without the named member), and nothing when the call threw. -/
def directContribution (p : Provider) : List Contact :=
  match p.contactsList 0 none with
  | CallResult.returned data => interpretWithoutNamedField data
  | CallResult.threw _ => []

/-- The contacts accumulated from the calls that succeeded, in fetch order. -/
def accumulatedContacts (p : Provider) : List Contact :=
  if listedAudiences p = [] then directContribution p
  else (List.enumFrom 0 (listedAudiences p)).flatMap
    (fun x => audienceContribution p x.1 x.2)

/-- The provider list calls of a resolution with their answers, in program order. -/
def resolutionEvents (p : Provider) : List Event :=
  eventsOfListCall Event.audiencesList p.audiencesList ++
    (if listedAudiences p = [] then
      eventsOfListCall (Event.contactsList none) (p.contactsList 0 none)
    else (List.enumFrom 0 (listedAudiences p)).flatMap (fun x =>
      eventsOfListCall (Event.contactsList (some x.2.id))
        (p.contactsList x.1 (some x.2.id))))

/-- The results that the send loop leaves for the payloads `emails`, in order. -/
def sendResults (p : Provider) (emails : List Email) : List SendResult :=
  (List.enumFrom 0 emails).map (fun x => resultOfSend p x.1 x.2)

/-- The effects of the send loop over the payloads `emails`, in order. -/
def sendEvents (p : Provider) (emails : List Email) : List Event :=
  (List.enumFrom 0 emails).flatMap (fun x => eventsOfSend p emails.length x.1 x.2)

/-- The number of results with the given status. -/
def countStatus (s : Status) (results : List SendResult) : Nat :=
  results.countP (fun r => decide (r.status = s))

/-! ## Example data -/

/-- A contact of the first example audience. -/
def alice : Contact := { email := "alice@example.com", fields := [("first_name", "Alice")] }

/-- A later record with the email of `alice`. -/
def aliceAgain : Contact :=
  { email := "alice@example.com", fields := [("first_name", "Alicia")] }

/-- A second contact. -/
def bob : Contact := { email := "bob@example.com", fields := [] }

/-- A third contact. -/
def carol : Contact := { email := "carol@example.com", fields := [] }

/-- An environment with credential and default sender. -/
def exampleEnv : Env := { RESEND_API_KEY := some "re_123", FROM_EMAIL := some "noreply@example.com" }

/-- A send response of the usual success shape, `{ data: { id }, error: null }`. -/
def okResponse : SendResponse :=
  { data := JSVal.obj [("id", JSVal.str "msg_1")], id := JSVal.undefined,
    error := JSVal.null }

/-- A provider with two audiences: the first lists `alice` and `bob` in the nested
shape, the second lists `carol` and `aliceAgain` as a bare array; the second send call
throws, the others return `okResponse`. -/
def exampleProvider : Provider :=
  { audiencesList := CallResult.returned
      (Payload.object (Slot.array [{ id := "aud_1", name := "News" },
        { id := "aud_2", name := "Beta" }]) (Slot.other false)),
    contactsList := fun k _ =>
      match k with
      | 0 => CallResult.returned (Payload.object (Slot.array [alice, bob]) (Slot.other false))
      | _ => CallResult.returned (Payload.array [carol, aliceAgain]),
    emailsSend := fun i _ =>
      match i with
      | 1 => CallResult.threw (mkError "socket hang up")
      | _ => CallResult.returned okResponse }

/-- A provider whose list calls all throw. -/
def failingProvider : Provider :=
  { audiencesList := CallResult.threw (mkError "network"),
    contactsList := fun _ _ => CallResult.threw (mkError "network"),
    emailsSend := fun _ _ => CallResult.returned okResponse }

/-- A provider without audiences whose contact listing carries the contacts in the
member `contacts` of the payload. -/
def namedFieldProvider : Provider :=
  { audiencesList := CallResult.returned (Payload.object (Slot.array []) (Slot.other false)),
    contactsList := fun _ _ =>
      CallResult.returned (Payload.object (Slot.other false) (Slot.array [alice])),
    emailsSend := fun _ _ => CallResult.returned okResponse }

/-- A POST request whose body object has no `subject`. -/
def requestWithoutSubject : Request :=
  { method := "POST",
    body := ParsedBody.object
      { subject := none, body := some "<p>x</p>", fromEmail := some "a@b.com",
        fromName := none } }

/-- A POST request that came without a parsed body (`req.body` is `undefined`), so
that `subject` is missing. -/
def requestWithoutBody : Request :=
  { method := "POST", body := ParsedBody.undefined }

/-- The number of provider list calls of a resolution that returned. -/
def returnedListCalls (p : Provider) : Nat :=
  (if p.audiencesList.isReturned then 1 else 0) +
    (if listedAudiences p = [] then
      (if (p.contactsList 0 none).isReturned then 1 else 0)
    else (List.enumFrom 0 (listedAudiences p)).countP
      (fun x => (p.contactsList x.1 (some x.2.id)).isReturned))

/-- The part of a trace from the first send call on. -/
def fromFirstSend (trace : List Event) : List Event :=
  trace.dropWhile (fun e => !e.isSend)

/-! ## The insertion-ordered mapping: keys, entries, order -/

section MapLemmas

variable {κ ν : Type} [DecidableEq κ]

theorem mapSet_keys (m : List (κ × ν)) (k : κ) (v : ν) :
    (mapSet m k v).map Prod.fst =
      if k ∈ m.map Prod.fst then m.map Prod.fst else m.map Prod.fst ++ [k] := by
  induction m with
  | nil => simp [mapSet]
  | cons hd tl ih =>
    obtain ⟨k', v'⟩ := hd
    by_cases h : k' = k
    · subst h
      simp [mapSet]
    · have h' : ¬ k = k' := fun e => h e.symm
      by_cases hm : k ∈ tl.map Prod.fst
      · simp only [mapSet, h, if_false, List.map_cons, ih, hm, if_true, List.mem_cons,
          or_true]
      · simp only [mapSet, h, if_false, List.map_cons, ih, hm, List.mem_cons, h',
          or_self, List.cons_append]

theorem mem_mapSet (m : List (κ × ν)) (k : κ) (v : ν) (hnd : (m.map Prod.fst).Nodup)
    (x : κ × ν) (hx : x ∈ mapSet m k v) : x = (k, v) ∨ (x ∈ m ∧ x.1 ≠ k) := by
  induction m with
  | nil =>
    left
    simpa [mapSet] using hx
  | cons hd tl ih =>
    obtain ⟨k', v'⟩ := hd
    rw [List.map_cons, List.nodup_cons] at hnd
    by_cases h : k' = k
    · subst h
      simp only [mapSet, if_true, List.mem_cons] at hx
      rcases hx with hx | hx
      · left; exact hx
      · right
        refine ⟨List.mem_cons_of_mem _ hx, ?_⟩
        intro e
        have hmem := List.mem_map_of_mem Prod.fst hx
        rw [e] at hmem
        exact hnd.1 hmem
    · simp only [mapSet, h, if_false, List.mem_cons] at hx
      rcases hx with hx | hx
      · right
        subst hx
        exact ⟨List.mem_cons_self _ _, h⟩
      · rcases ih hnd.2 hx with h1 | h1
        · left; exact h1
        · right; exact ⟨List.mem_cons_of_mem _ h1.1, h1.2⟩

theorem newMap_snoc (es : List (κ × ν)) (e : κ × ν) :
    newMap (es ++ [e]) = mapSet (newMap es) e.1 e.2 := by
  simp [newMap, List.foldl_append]

theorem newMap_keys_mem (es : List (κ × ν)) (k : κ) :
    k ∈ (newMap es).map Prod.fst ↔ k ∈ es.map Prod.fst := by
  induction es using List.reverseRecOn with
  | nil => simp [newMap]
  | append_singleton es e ih =>
    rw [newMap_snoc, mapSet_keys]
    by_cases h : e.1 ∈ (newMap es).map Prod.fst
    · rw [if_pos h, ih, List.map_append, List.mem_append]
      constructor
      · intro hk; exact Or.inl hk
      · rintro (hk | hk)
        · exact hk
        · simp only [List.map_cons, List.map_nil, List.mem_singleton] at hk
          subst hk
          exact ih.1 h
    · rw [if_neg h, List.mem_append, ih, List.map_append, List.mem_append]
      simp

theorem newMap_keys_nodup (es : List (κ × ν)) : ((newMap es).map Prod.fst).Nodup := by
  induction es using List.reverseRecOn with
  | nil => simp [newMap]
  | append_singleton es e ih =>
    rw [newMap_snoc, mapSet_keys]
    by_cases h : e.1 ∈ (newMap es).map Prod.fst
    · rw [if_pos h]; exact ih
    · rw [if_neg h]
      rw [List.nodup_append]
      refine ⟨ih, List.nodup_singleton _, ?_⟩
      intro a ha hb
      rw [List.mem_singleton] at hb
      exact h (hb ▸ ha)

theorem newMap_entry_last (es : List (κ × ν)) (x : κ × ν) (hx : x ∈ newMap es) :
    es.reverse.find? (fun e => decide (e.1 = x.1)) = some x := by
  induction es using List.reverseRecOn with
  | nil => simp [newMap] at hx
  | append_singleton es e ih =>
    rw [newMap_snoc] at hx
    rw [List.reverse_append, List.reverse_singleton, List.singleton_append]
    rcases mem_mapSet _ _ _ (newMap_keys_nodup es) x hx with h | h
    · subst h
      simp [List.find?_cons]
    · have hne : ¬ e.1 = x.1 := fun e' => h.2 e'.symm
      rw [List.find?_cons]
      simp only [hne, decide_False]
      exact ih h.1

theorem newMap_keys_order (es : List (κ × ν)) :
    ((newMap es).map Prod.fst).Pairwise
      (fun a b => (es.map Prod.fst).indexOf a < (es.map Prod.fst).indexOf b) := by
  induction es using List.reverseRecOn with
  | nil => simp [newMap]
  | append_singleton es e ih =>
    have keep : ((newMap es).map Prod.fst).Pairwise (fun a b =>
        ((es ++ [e]).map Prod.fst).indexOf a < ((es ++ [e]).map Prod.fst).indexOf b) := by
      refine List.Pairwise.imp_of_mem ?_ ih
      intro a b ha hb hab
      rw [newMap_keys_mem] at ha hb
      rw [List.map_append, List.indexOf_append_of_mem ha, List.indexOf_append_of_mem hb]
      exact hab
    rw [newMap_snoc, mapSet_keys]
    by_cases h : e.1 ∈ (newMap es).map Prod.fst
    · rw [if_pos h]; exact keep
    · rw [if_neg h, List.pairwise_append]
      refine ⟨keep, List.pairwise_singleton _ _, ?_⟩
      intro a ha b hb
      rw [List.mem_singleton] at hb
      subst hb
      have hnot : e.1 ∉ es.map Prod.fst := fun hm => h ((newMap_keys_mem es e.1).2 hm)
      rw [newMap_keys_mem] at ha
      rw [List.map_append, List.indexOf_append_of_mem ha,
        List.indexOf_append_of_not_mem hnot]
      have := (List.indexOf_lt_length (a := a) (l := es.map Prod.fst)).2 ha
      omega

end MapLemmas

/-! ## Deduplication by email -/

theorem emailEntries_keys (allContacts : List Contact) :
    (emailEntries allContacts).map Prod.fst = allContacts.map Contact.email := by
  simp [emailEntries, List.map_map, Function.comp_def]

theorem newMap_entry_mem {κ ν : Type} [DecidableEq κ] (es : List (κ × ν)) (x : κ × ν)
    (hx : x ∈ newMap es) : x ∈ es := by
  have h := List.mem_of_find?_eq_some (newMap_entry_last es x hx)
  exact List.mem_reverse.1 h

theorem uniqueContacts_emails (allContacts : List Contact) :
    (uniqueContacts allContacts).map Contact.email =
      (newMap (emailEntries allContacts)).map Prod.fst := by
  unfold uniqueContacts mapValues
  rw [List.map_map]
  apply List.map_congr_left
  intro x hx
  have hmem := newMap_entry_mem _ x hx
  simp only [List.mem_map] at hmem
  obtain ⟨c, -, hc⟩ := hmem
  subst hc
  rfl

theorem uniqueContacts_last (allContacts : List Contact) (c : Contact)
    (hc : c ∈ uniqueContacts allContacts) :
    allContacts.reverse.find? (fun d => decide (d.email = c.email)) = some c := by
  unfold uniqueContacts mapValues at hc
  rw [List.mem_map] at hc
  obtain ⟨x, hx, hxc⟩ := hc
  have hlast := newMap_entry_last _ x hx
  have hmem := newMap_entry_mem _ x hx
  simp only [List.mem_map] at hmem
  obtain ⟨d, -, hd⟩ := hmem
  subst hd
  simp only at hxc
  subst hxc
  have hrev : (allContacts.map fun contact => (contact.email, contact)).reverse =
      allContacts.reverse.map fun contact => (contact.email, contact) := by
    rw [List.map_reverse]
  rw [hrev, List.find?_map] at hlast
  cases hf : allContacts.reverse.find? (fun e => decide (e.email = d.email)) with
  | none =>
    simp only [Function.comp_def] at hlast
    rw [hf] at hlast
    simp at hlast
  | some f =>
    simp only [Function.comp_def] at hlast
    rw [hf] at hlast
    simp only [Option.map_some', Option.some.injEq, Prod.mk.injEq] at hlast
    rw [hlast.2]

/-- C1: the deduplication step of `getAllContacts` returns exactly one entry per distinct
email of the accumulated list (no email twice, the same emails as the input, as many
entries as distinct emails); each entry is the last record of the accumulated list with
its email; and the entries stand in the order in which their emails first occur in the
accumulated list. -/
theorem uniqueContacts_one_per_email_last_wins (allContacts : List Contact) :
    ((uniqueContacts allContacts).map Contact.email).Nodup
    ∧ (∀ e, e ∈ (uniqueContacts allContacts).map Contact.email ↔
        e ∈ allContacts.map Contact.email)
    ∧ (uniqueContacts allContacts).length = (allContacts.map Contact.email).toFinset.card
    ∧ (∀ c ∈ uniqueContacts allContacts,
        allContacts.reverse.find? (fun d => decide (d.email = c.email)) = some c)
    ∧ ((uniqueContacts allContacts).map Contact.email).Pairwise (fun a b =>
        (allContacts.map Contact.email).indexOf a <
          (allContacts.map Contact.email).indexOf b) := by
  have hnd : ((uniqueContacts allContacts).map Contact.email).Nodup := by
    rw [uniqueContacts_emails]
    exact newMap_keys_nodup _
  have hmem : ∀ e, e ∈ (uniqueContacts allContacts).map Contact.email ↔
      e ∈ allContacts.map Contact.email := by
    intro e
    rw [uniqueContacts_emails, newMap_keys_mem, emailEntries_keys]
  refine ⟨hnd, hmem, ?_, uniqueContacts_last allContacts, ?_⟩
  · have hset : ((uniqueContacts allContacts).map Contact.email).toFinset =
        (allContacts.map Contact.email).toFinset := by
      ext e
      simp only [List.mem_toFinset]
      exact hmem e
    rw [← hset, List.toFinset_card_of_nodup hnd, List.length_map]
  · rw [uniqueContacts_emails]
    have h := newMap_keys_order (emailEntries allContacts)
    rw [emailEntries_keys] at h
    exact h

/-! ## The send loop -/

theorem JSVal.truthy_null : JSVal.null.truthy = false := rfl

theorem recordResponse_eq (email : Email) (r : SendResponse) (st : LoopState) :
    recordResponse email r st =
      { st with
        successCount := st.successCount +
          (if (classifyByPriority email.to_ r).status = Status.success then 1 else 0)
        failureCount := st.failureCount +
          (if (classifyByPriority email.to_ r).status = Status.failed then 1 else 0)
        results := st.results ++ [classifyByPriority email.to_ r] } := by
  cases h1 : r.error.truthy <;> cases h2 : (r.data.optField "id").truthy <;>
    cases h3 : r.id.truthy <;> cases h4 : r.data.truthy <;>
    cases h5 : r.data.isString <;> cases h6 : (r.error.optField "message").truthy <;>
    simp [recordResponse, readResponse, classifyByPriority, recognizedId, errorText,
      JSVal.or, JSVal.truthy_null, h1, h2, h3, h4, h5, h6]

theorem sendStep_results (p : Provider) (n i : Nat) (email : Email) (st : LoopState) :
    (sendStep p n i email st).results = st.results ++ [resultOfSend p i email] := by
  unfold sendStep resultOfSend
  cases h : p.emailsSend i email with
  | returned r =>
    simp only [recordResponse_eq]
    split <;> rfl
  | threw err => rfl

theorem sendStep_trace (p : Provider) (n i : Nat) (email : Email) (st : LoopState) :
    (sendStep p n i email st).trace = st.trace ++ eventsOfSend p n i email := by
  unfold sendStep eventsOfSend
  cases h : p.emailsSend i email with
  | returned r =>
    simp only [recordResponse_eq, CallResult.isReturned, Bool.true_and]
    by_cases hlt : i < n - 1
    · simp [hlt]
    · simp [hlt]
  | threw err => simp [recordThrown, CallResult.isReturned]

theorem sendStep_successCount (p : Provider) (n i : Nat) (email : Email)
    (st : LoopState) :
    (sendStep p n i email st).successCount = st.successCount +
      (if (resultOfSend p i email).status = Status.success then 1 else 0) := by
  unfold sendStep resultOfSend
  cases h : p.emailsSend i email with
  | returned r =>
    simp only [recordResponse_eq]
    split <;> rfl
  | threw err => simp [recordThrown, thrownResult]

theorem sendStep_failureCount (p : Provider) (n i : Nat) (email : Email)
    (st : LoopState) :
    (sendStep p n i email st).failureCount = st.failureCount +
      (if (resultOfSend p i email).status = Status.failed then 1 else 0) := by
  unfold sendStep resultOfSend
  cases h : p.emailsSend i email with
  | returned r =>
    simp only [recordResponse_eq]
    split <;> rfl
  | threw err => simp [recordThrown, thrownResult]

theorem sendLoop_results (p : Provider) (n : Nat) (emails : List Email) :
    ∀ (i : Nat) (st : LoopState), (sendLoop p n emails i st).results =
      st.results ++ (List.enumFrom i emails).map (fun x => resultOfSend p x.1 x.2) := by
  induction emails with
  | nil => intro i st; simp [sendLoop]
  | cons e rest ih =>
    intro i st
    simp only [sendLoop, ih, sendStep_results, List.enumFrom_cons, List.map_cons,
      List.append_assoc, List.singleton_append]

theorem sendLoop_trace (p : Provider) (n : Nat) (emails : List Email) :
    ∀ (i : Nat) (st : LoopState), (sendLoop p n emails i st).trace =
      st.trace ++ (List.enumFrom i emails).flatMap (fun x => eventsOfSend p n x.1 x.2) := by
  induction emails with
  | nil => intro i st; simp [sendLoop]
  | cons e rest ih =>
    intro i st
    simp only [sendLoop, ih, sendStep_trace, List.enumFrom_cons, List.flatMap_cons,
      List.append_assoc]

theorem sendLoop_successCount (p : Provider) (n : Nat) (emails : List Email) :
    ∀ (i : Nat) (st : LoopState), (sendLoop p n emails i st).successCount =
      st.successCount + ((List.enumFrom i emails).map
        (fun x => resultOfSend p x.1 x.2)).countP
          (fun r => decide (r.status = Status.success)) := by
  induction emails with
  | nil => intro i st; simp [sendLoop]
  | cons e rest ih =>
    intro i st
    simp only [sendLoop, ih, sendStep_successCount, List.enumFrom_cons, List.map_cons,
      List.countP_cons]
    split <;> simp_all
    all_goals omega

theorem sendLoop_failureCount (p : Provider) (n : Nat) (emails : List Email) :
    ∀ (i : Nat) (st : LoopState), (sendLoop p n emails i st).failureCount =
      st.failureCount + ((List.enumFrom i emails).map
        (fun x => resultOfSend p x.1 x.2)).countP
          (fun r => decide (r.status = Status.failed)) := by
  induction emails with
  | nil => intro i st; simp [sendLoop]
  | cons e rest ih =>
    intro i st
    simp only [sendLoop, ih, sendStep_failureCount, List.enumFrom_cons, List.map_cons,
      List.countP_cons]
    split <;> simp_all
    all_goals omega

/-! ## Contact resolution -/

theorem pushAudienceContacts_eq (data : Payload Contact) (allContacts : List Contact) :
    pushAudienceContacts data allContacts = allContacts ++ interpretListResponse data := by
  cases data with
  | array xs =>
    cases xs <;>
      simp [pushAudienceContacts, interpretListResponse, Payload.optData, Payload.truthy,
        Payload.isArray, Payload.asSlot, Slot.truthy, Slot.isArray, Slot.items,
        Slot.lengthPos]
  | object d c =>
    cases d with
    | array xs =>
      simp [pushAudienceContacts, interpretListResponse, Payload.optData, Slot.truthy,
        Slot.isArray, Slot.items]
    | other b =>
      cases c with
      | array ys =>
        cases ys <;>
          simp [pushAudienceContacts, interpretListResponse, Payload.optData,
            Payload.truthy, Payload.isArray, Payload.contacts, Slot.truthy, Slot.isArray,
            Slot.items, Slot.lengthPos, Slot.orEmpty]
      | other b' =>
        cases b' <;>
          simp [pushAudienceContacts, interpretListResponse, Payload.optData,
            Payload.truthy, Payload.isArray, Payload.contacts, Slot.truthy, Slot.isArray,
            Slot.items, Slot.lengthPos, Slot.orEmpty]
  | other b =>
    cases b <;>
      simp [pushAudienceContacts, interpretListResponse, Payload.optData, Payload.truthy,
        Payload.isArray, Payload.contacts, Slot.truthy, Slot.isArray, Slot.items,
        Slot.lengthPos, Slot.orEmpty]

theorem pushDirectContacts_eq (data : Payload Contact) (allContacts : List Contact) :
    pushDirectContacts data allContacts =
      allContacts ++ interpretWithoutNamedField data := by
  cases data with
  | array xs =>
    simp [pushDirectContacts, interpretWithoutNamedField, Payload.optData,
      Payload.isArray, Payload.asSlot, Slot.truthy, Slot.isArray, Slot.items]
  | object d c =>
    cases d with
    | array xs =>
      simp [pushDirectContacts, interpretWithoutNamedField, Payload.optData, Slot.truthy,
        Slot.isArray, Slot.items]
    | other b =>
      simp [pushDirectContacts, interpretWithoutNamedField, Payload.optData,
        Payload.isArray, Slot.truthy, Slot.isArray]
  | other b =>
    simp [pushDirectContacts, interpretWithoutNamedField, Payload.optData,
      Payload.isArray, Slot.truthy, Slot.isArray]

theorem fetchAudiences_items (p : Provider) :
    (fetchAudiences p).1.items = listedAudiences p := by
  unfold fetchAudiences listedAudiences
  cases p.audiencesList with
  | threw err => rfl
  | returned data =>
    cases data with
    | array xs => rfl
    | other b => rfl
    | object d c =>
      cases d with
      | array xs => rfl
      | other b => cases b <;> rfl

theorem fetchAudiences_lengthPos (p : Provider) :
    (fetchAudiences p).1.lengthPos = !decide (listedAudiences p = []) := by
  unfold fetchAudiences listedAudiences
  cases p.audiencesList with
  | threw err => rfl
  | returned data =>
    cases data with
    | array xs => rfl
    | other b => rfl
    | object d c =>
      cases d with
      | array xs =>
        cases xs <;> simp [Payload.optData, Slot.orEmpty, Slot.truthy, Slot.lengthPos]
      | other b => cases b <;> rfl

theorem fetchAudiences_trace (p : Provider) :
    (fetchAudiences p).2 = eventsOfListCall Event.audiencesList p.audiencesList := by
  unfold fetchAudiences eventsOfListCall
  cases p.audiencesList <;> rfl

theorem audienceLoop_eq (p : Provider) (audiences : List Audience) :
    ∀ (k : Nat) (allContacts : List Contact) (trace : List Event),
      audienceLoop p audiences k (allContacts, trace) =
        (allContacts ++ (List.enumFrom k audiences).flatMap
            (fun x => audienceContribution p x.1 x.2),
         trace ++ (List.enumFrom k audiences).flatMap (fun x =>
            eventsOfListCall (Event.contactsList (some x.2.id))
              (p.contactsList x.1 (some x.2.id)))) := by
  induction audiences with
  | nil => intro k allContacts trace; simp [audienceLoop]
  | cons a rest ih =>
    intro k allContacts trace
    simp only [audienceLoop, List.enumFrom_cons, List.flatMap_cons]
    cases h : p.contactsList k (some a.id) with
    | returned data =>
      simp only [ih, pushAudienceContacts_eq, audienceContribution, h, eventsOfListCall,
        CallResult.isReturned, if_true, List.append_assoc, List.cons_append,
        List.nil_append]
    | threw err =>
      simp [ih, audienceContribution, h, eventsOfListCall, CallResult.isReturned]

theorem directContacts_eq (p : Provider) (trace : List Event) :
    directContacts p ([], trace) =
      (directContribution p,
       trace ++ eventsOfListCall (Event.contactsList none) (p.contactsList 0 none)) := by
  unfold directContacts directContribution eventsOfListCall
  cases h : p.contactsList 0 none with
  | returned data => simp [pushDirectContacts_eq, CallResult.isReturned]
  | threw err => simp [CallResult.isReturned]

theorem getResendClient_ok (env : Env) (resend client : Bool)
    (h : getResendClient env resend = Except.ok client) : client = true := by
  unfold getResendClient at h
  cases resend <;> cases hk : truthyStr env.RESEND_API_KEY <;> simp_all

theorem getAllContacts_eq (env : Env) (resend : Bool) (p : Provider)
    (hc : getResendClient env resend = Except.ok true) :
    getAllContacts env resend p =
      { result := Except.ok (uniqueContacts (accumulatedContacts p)), resend := true,
        trace := resolutionEvents p } := by
  unfold getAllContacts
  rw [hc]
  simp only [fetchAudiences_lengthPos, fetchAudiences_items, fetchAudiences_trace]
  unfold accumulatedContacts resolutionEvents
  by_cases h : listedAudiences p = []
  · simp [h, directContacts_eq]
  · simp [h, audienceLoop_eq]

theorem getAllContacts_client (env : Env) (resend : Bool) (p : Provider)
    (contacts : List Contact)
    (hres : (getAllContacts env resend p).result = Except.ok contacts) :
    getResendClient env resend = Except.ok true := by
  unfold getAllContacts at hres
  cases h : getResendClient env resend with
  | error e => rw [h] at hres; simp at hres
  | ok client => rw [getResendClient_ok env resend client h]

theorem getAllContacts_result (env : Env) (resend : Bool) (p : Provider)
    (contacts : List Contact)
    (hres : (getAllContacts env resend p).result = Except.ok contacts) :
    contacts = uniqueContacts (accumulatedContacts p) := by
  rw [getAllContacts_eq env resend p (getAllContacts_client env resend p contacts hres)]
    at hres
  simp only [Except.ok.injEq] at hres
  exact hres.symm

theorem eventsOfListCall_not_send {α : Type} (call : Event) (r : CallResult α)
    (hcall : call.isSend = false) : ∀ e ∈ eventsOfListCall call r, e.isSend = false := by
  intro e he
  unfold eventsOfListCall at he
  rw [List.mem_cons] at he
  rcases he with he | he
  · rw [he]; exact hcall
  · split at he
    · rw [List.mem_singleton] at he
      rw [he]; rfl
    · simp at he

theorem resolutionEvents_not_send (p : Provider) :
    ∀ e ∈ resolutionEvents p, e.isSend = false := by
  intro e he
  unfold resolutionEvents at he
  rw [List.mem_append] at he
  rcases he with he | he
  · exact eventsOfListCall_not_send Event.audiencesList _ rfl e he
  · split at he
    · exact eventsOfListCall_not_send (Event.contactsList none) _ rfl e he
    · rw [List.mem_flatMap] at he
      obtain ⟨x, -, hx⟩ := he
      exact eventsOfListCall_not_send (Event.contactsList (some x.2.id)) _ rfl e hx

/-! ## The broadcast run -/

theorem broadcastEmail_eq (env : Env) (resend : Bool) (p : Provider)
    (subject body fromEmail : String) (fromName : Option String)
    (contacts : List Contact)
    (hres : (getAllContacts env resend p).result = Except.ok contacts)
    (hne : contacts ≠ []) :
    broadcastEmail env resend p subject body fromEmail fromName =
      { result := Except.ok
          { success := true,
            message := "Broadcast completed: " ++
              toString (countStatus Status.success (sendResults p (batchEmails contacts
                (fromField fromEmail fromName) subject body))) ++ " sent, " ++
              toString (countStatus Status.failed (sendResults p (batchEmails contacts
                (fromField fromEmail fromName) subject body))) ++ " failed",
            sent := countStatus Status.success (sendResults p (batchEmails contacts
                (fromField fromEmail fromName) subject body)),
            failed := some (countStatus Status.failed (sendResults p (batchEmails contacts
                (fromField fromEmail fromName) subject body))),
            total := contacts.length,
            results := some (sendResults p (batchEmails contacts
                (fromField fromEmail fromName) subject body)) },
        resend := true,
        trace := resolutionEvents p ++ Event.delay pacing ::
          sendEvents p (batchEmails contacts (fromField fromEmail fromName) subject body) } := by
  have hc := getAllContacts_client env resend p contacts hres
  have hcs := getAllContacts_result env resend p contacts hres
  have hlen : ¬ contacts.length = 0 := fun h => hne (List.length_eq_zero.1 h)
  have hcl : getResendClient env true = Except.ok true := rfl
  unfold broadcastEmail
  rw [getAllContacts_eq env resend p hc]
  simp only [← hcs, hlen, if_false, hcl, sendLoop_results, sendLoop_trace,
    sendLoop_successCount, sendLoop_failureCount, List.nil_append, Nat.zero_add,
    List.append_assoc, List.singleton_append, sendResults, sendEvents, countStatus]

/-! ## Results and effects of the send loop -/

theorem classifyByPriority_email (to_ : String) (r : SendResponse) :
    (classifyByPriority to_ r).email = to_ := by
  unfold classifyByPriority
  cases r.error.truthy <;> cases recognizedId r <;> cases r.data.truthy <;> rfl

theorem resultOfSend_email (p : Provider) (i : Nat) (email : Email) :
    (resultOfSend p i email).email = email.to_ := by
  unfold resultOfSend
  cases p.emailsSend i email with
  | threw err => rfl
  | returned r => exact classifyByPriority_email email.to_ r

theorem resultOfSend_status (p : Provider) (i : Nat) (email : Email) :
    (resultOfSend p i email).status = Status.success ∨
      (resultOfSend p i email).status = Status.failed := by
  cases h : (resultOfSend p i email).status
  · exact Or.inl rfl
  · exact Or.inr rfl

theorem sendResults_length (p : Provider) (emails : List Email) :
    (sendResults p emails).length = emails.length := by
  simp [sendResults]

theorem sendResults_emails (p : Provider) (emails : List Email) :
    (sendResults p emails).map SendResult.email = emails.map Email.to_ := by
  unfold sendResults
  rw [List.map_map]
  have h : (SendResult.email ∘ fun x : Nat × Email => resultOfSend p x.1 x.2) =
      Email.to_ ∘ Prod.snd := by
    funext x
    simp [resultOfSend_email]
  rw [h, ← List.map_map, List.enumFrom_map_snd]

theorem sendResults_getElem? (p : Provider) (emails : List Email) (k : Nat) :
    (sendResults p emails)[k]? = (emails[k]?).map (resultOfSend p k) := by
  unfold sendResults
  rw [List.getElem?_map, List.getElem?_enumFrom]
  cases emails[k]? <;> simp

theorem countStatus_total (results : List SendResult) :
    countStatus Status.success results + countStatus Status.failed results =
      results.length := by
  unfold countStatus
  induction results with
  | nil => rfl
  | cons r rest ih =>
    rw [List.countP_cons, List.countP_cons, List.length_cons]
    cases h : r.status <;> simp <;> omega

theorem batchEmails_length (contacts : List Contact) (frm subject body : String) :
    (batchEmails contacts frm subject body).length = contacts.length := by
  simp [batchEmails]

theorem batchEmails_to (contacts : List Contact) (frm subject body : String) :
    (batchEmails contacts frm subject body).map Email.to_ =
      contacts.map Contact.email := by
  simp [batchEmails, List.map_map, Function.comp_def]

theorem batchEmails_getElem? (contacts : List Contact) (frm subject body : String)
    (k : Nat) :
    (batchEmails contacts frm subject body)[k]? = (contacts[k]?).map (fun contact =>
      { from_ := frm, to_ := contact.email, subject := subject, html := body }) := by
  simp [batchEmails]

theorem filter_isSend_events (p : Provider) (n : Nat) (l : List (Nat × Email)) :
    (l.flatMap (fun x => eventsOfSend p n x.1 x.2)).filter Event.isSend =
      l.map (fun x => Event.emailsSend x.2) := by
  induction l with
  | nil => rfl
  | cons x rest ih =>
    rw [List.flatMap_cons, List.filter_append, ih, List.map_cons]
    unfold eventsOfSend
    split <;> simp [Event.isSend]

theorem sendEvents_sends (p : Provider) (emails : List Email) :
    (sendEvents p emails).filter Event.isSend = emails.map Event.emailsSend := by
  unfold sendEvents
  rw [filter_isSend_events]
  have h : (fun x : Nat × Email => Event.emailsSend x.2) = Event.emailsSend ∘ Prod.snd := rfl
  rw [h, ← List.map_map, List.enumFrom_map_snd]

theorem countP_isDelay_events (p : Provider) (n : Nat) (l : List (Nat × Email)) :
    (l.flatMap (fun x => eventsOfSend p n x.1 x.2)).countP Event.isDelay =
      l.countP (fun x => (p.emailsSend x.1 x.2).isReturned && decide (x.1 < n - 1)) := by
  induction l with
  | nil => rfl
  | cons x rest ih =>
    rw [List.flatMap_cons, List.countP_append, ih, List.countP_cons]
    unfold eventsOfSend
    cases h : ((p.emailsSend x.1 x.2).isReturned && decide (x.1 < n - 1))
    · simp [Event.isDelay]
    · simp [Event.isDelay]
      omega

theorem sendEvents_last (p : Provider) (emails : List Email) (hne : emails ≠ []) :
    ∃ email, (sendEvents p emails).getLast? = some (Event.emailsSend email) := by
  obtain ⟨front, last, hfl⟩ : ∃ front last, emails = front ++ [last] := by
    refine ⟨emails.dropLast, emails.getLast hne, ?_⟩
    exact (List.dropLast_append_getLast hne).symm
  refine ⟨last, ?_⟩
  unfold sendEvents
  rw [hfl, List.enumFrom_append, List.flatMap_append]
  simp [eventsOfSend]

/-! ## Classification of a returned send response -/

/-- C2: for every response returned (not thrown) by a send call, the iteration appends
exactly the result that the priority order prescribes (`classifyByPriority`): (a) with an
error member, `failed` with the error message; (b) otherwise, with a recognized
identifier (`data.id`, or `id`, or `data` being a string), `success` with that
identifier; (c) otherwise, with a payload present, `success` with the identifier `sent`
and a note; (d) otherwise `failed` with the error `No email ID returned in response`;
and it counts the result under its status. -/
theorem sendStep_classifies_in_priority_order (p : Provider) (n i : Nat) (email : Email)
    (st : LoopState) (r : SendResponse)
    (hret : p.emailsSend i email = CallResult.returned r) :
    (sendStep p n i email st).results = st.results ++ [classifyByPriority email.to_ r]
    ∧ (classifyByPriority email.to_ r).email = email.to_
    ∧ (classifyByPriority email.to_ r).status =
        (if r.error.truthy then Status.failed
         else if (recognizedId r).isSome then Status.success
         else if r.data.truthy then Status.success
         else Status.failed)
    ∧ (sendStep p n i email st).successCount = st.successCount +
        (if (classifyByPriority email.to_ r).status = Status.success then 1 else 0)
    ∧ (sendStep p n i email st).failureCount = st.failureCount +
        (if (classifyByPriority email.to_ r).status = Status.failed then 1 else 0) := by
  have hres : resultOfSend p i email = classifyByPriority email.to_ r := by
    unfold resultOfSend
    rw [hret]
  refine ⟨?_, ?_, ?_, ?_, ?_⟩
  · rw [sendStep_results, hres]
  · unfold classifyByPriority
    cases r.error.truthy <;> cases recognizedId r <;> cases r.data.truthy <;> rfl
  · unfold classifyByPriority
    cases r.error.truthy <;> cases recognizedId r <;> cases r.data.truthy <;> rfl
  · rw [sendStep_successCount, hres]
  · rw [sendStep_failureCount, hres]

/-- Witness of C2: the first send call of `exampleProvider` returns `okResponse`, whose
identifier `data.id` is recorded with status `success`. -/
theorem sendStep_classifies_in_priority_order_witness :
    exampleProvider.emailsSend 0
        { from_ := "a@b.com", to_ := "alice@example.com", subject := "Hi",
          html := "<p>x</p>" } = CallResult.returned okResponse
    ∧ (classifyByPriority "alice@example.com" okResponse).status = Status.success :=
  ⟨rfl, by
    have h := sendStep_classifies_in_priority_order exampleProvider 3 0
      { from_ := "a@b.com", to_ := "alice@example.com", subject := "Hi",
        html := "<p>x</p>" }
      { successCount := 0, failureCount := 0, results := [], trace := [] } okResponse rfl
    rw [h.2.2.1]
    rfl⟩

/-! ## The empty contact sequence -/

/-- C5: when the resolved contact sequence is empty, `broadcastEmail` raises no error
and resolves to `success = false`, `sent = 0`, `total = 0` with the message
`No contacts found in Resend account`; it adds no effect to those of the resolution, and
no send call is issued. -/
theorem broadcastEmail_without_contacts (env : Env) (resend : Bool) (p : Provider)
    (subject body fromEmail : String) (fromName : Option String)
    (hres : (getAllContacts env resend p).result = Except.ok []) :
    (broadcastEmail env resend p subject body fromEmail fromName).result =
        Except.ok { success := false, message := "No contacts found in Resend account",
                    sent := 0, failed := none, total := 0, results := none }
    ∧ (broadcastEmail env resend p subject body fromEmail fromName).trace =
        (getAllContacts env resend p).trace
    ∧ (broadcastEmail env resend p subject body fromEmail fromName).trace.countP
        Event.isSend = 0 := by
  have hc := getAllContacts_client env resend p [] hres
  have hb : broadcastEmail env resend p subject body fromEmail fromName =
      Run.mk (Except.ok (Outcome.mk false "No contacts found in Resend account" 0 none 0
        none)) (getAllContacts env resend p).resend (getAllContacts env resend p).trace := by
    unfold broadcastEmail
    simp only [hres, List.length_nil, if_true]
  refine ⟨by rw [hb], by rw [hb], ?_⟩
  rw [hb, getAllContacts_eq env resend p hc]
  rw [List.countP_eq_zero]
  intro e he
  rw [resolutionEvents_not_send p e he]
  simp

/-- Witness of C5: with `failingProvider` the resolution yields no contact. -/
theorem broadcastEmail_without_contacts_witness :
    (getAllContacts exampleEnv false failingProvider).result = Except.ok []
    ∧ (broadcastEmail exampleEnv false failingProvider "Hi" "<p>x</p>" "a@b.com"
        none).trace.countP Event.isSend = 0 :=
  ⟨rfl, (broadcastEmail_without_contacts exampleEnv false failingProvider "Hi" "<p>x</p>"
    "a@b.com" none rfl).2.2⟩

/-! ## Request validation -/

/-- A POST request that carries a body object, handled while the credential is
configured, is answered with status 400 and a JSON error message when `subject` is
missing, or `body` is missing, or neither `fromEmail` nor the default sender is set; no
provider call (indeed no effect at all) takes place. -/
theorem handler_rejects_invalid_members (env : Env) (resend : Bool) (p : Provider)
    (req : Request) (members : RequestBody) (hpost : req.method = "POST")
    (hkey : truthyStr env.RESEND_API_KEY = true)
    (hbody : req.body = ParsedBody.object members)
    (hbad : truthyStr members.subject = false ∨ truthyStr members.body = false ∨
      (truthyStr members.fromEmail = false ∧ truthyStr env.FROM_EMAIL = false)) :
    (handler env resend p req).1.status = 400
    ∧ (∃ msg, (handler env resend p req).1.body = ResponseBody.error msg)
    ∧ (handler env resend p req).2.2 = [] := by
  have hno : ¬ ("POST" = "OPTIONS") := by decide
  unfold handler
  simp only [hpost, hno, if_false, ne_eq, not_true_eq_false, hkey, Bool.not_true,
    Bool.false_eq_true, hbody, destructureBody]
  rcases hbad with h | h | h
  · simp [h]
  · simp [h]
  · cases hs : truthyStr members.subject <;> cases hb : truthyStr members.body <;>
      simp [h.1, h.2]

/-- An instance of `handler_rejects_invalid_members`: `requestWithoutSubject` is a POST
request whose body object has no `subject`. -/
theorem handler_rejects_invalid_members_example :
    requestWithoutSubject.method = "POST"
    ∧ (handler exampleEnv false exampleProvider requestWithoutSubject).1.status = 400
    ∧ (handler exampleEnv false exampleProvider requestWithoutSubject).2.2 = [] :=
  ⟨rfl,
   (handler_rejects_invalid_members exampleEnv false exampleProvider
      requestWithoutSubject _ rfl rfl rfl (Or.inl rfl)).1,
   (handler_rejects_invalid_members exampleEnv false exampleProvider
      requestWithoutSubject _ rfl rfl rfl (Or.inl rfl)).2.2⟩

/-- C6 at the failing input: a POST request without a parsed body reaches the handler
while the credential is configured; `subject` is missing, yet the destructuring of line
270 throws inside the `try` and the `catch` answers with status 500 and the body
`Internal server error`, not with status 400.  No provider call takes place. -/
theorem handler_answers_500_without_body :
    requestWithoutBody.method = "POST"
    ∧ truthyStr exampleEnv.RESEND_API_KEY = true
    ∧ (handler exampleEnv false exampleProvider requestWithoutBody).1.status = 500
    ∧ (handler exampleEnv false exampleProvider requestWithoutBody).1.body =
        ResponseBody.internalError "Internal server error"
          (JSVal.str "Cannot destructure property 'subject' of 'req.body' as it is undefined.")
    ∧ ¬ ((handler exampleEnv false exampleProvider requestWithoutBody).1.status = 400)
    ∧ (handler exampleEnv false exampleProvider requestWithoutBody).2.2 = [] := by
  refine ⟨rfl, rfl, rfl, rfl, by decide, rfl⟩

/-! ## Failure isolation and the returned counts -/

theorem uniqueContacts_nodup (allContacts : List Contact) :
    ((uniqueContacts allContacts).map Contact.email).Nodup := by
  rw [uniqueContacts_emails]
  exact newMap_keys_nodup _

/-- C3: when the send call for the contact at index `k` throws, `broadcastEmail` still
completes; its results hold, at index `k`, a result for that contact with status
`failed` (and the error text of the thrown error), and no other result carries that
contact's email; every contact is sent to exactly once and in order, so in particular a
send call is issued for every contact after `k`. -/
theorem broadcastEmail_isolates_thrown_send (env : Env) (resend : Bool) (p : Provider)
    (subject body fromEmail : String) (fromName : Option String)
    (contacts : List Contact) (k : Nat) (c : Contact) (err : Thrown)
    (hres : (getAllContacts env resend p).result = Except.ok contacts)
    (hk : contacts[k]? = some c)
    (hthrow : p.emailsSend k
      { from_ := fromField fromEmail fromName, to_ := c.email, subject := subject,
        html := body } = CallResult.threw err) :
    ∃ o rs res,
      (broadcastEmail env resend p subject body fromEmail fromName).result = Except.ok o
      ∧ o.results = some rs
      ∧ rs.length = contacts.length
      ∧ rs[k]? = some res
      ∧ res.email = c.email
      ∧ res.status = Status.failed
      ∧ res.error = some (err.message.or (JSVal.str "Unknown error"))
      ∧ (rs.map SendResult.email).count c.email = 1
      ∧ (broadcastEmail env resend p subject body fromEmail fromName).trace.filter
          Event.isSend =
            (batchEmails contacts (fromField fromEmail fromName) subject body).map
              Event.emailsSend
      ∧ (∀ j d, k < j → contacts[j]? = some d →
          Event.emailsSend (Email.mk (fromField fromEmail fromName) d.email subject body) ∈
            (broadcastEmail env resend p subject body fromEmail fromName).trace) := by
  have hne : contacts ≠ [] := by
    intro h
    rw [h] at hk
    simp at hk
  have hc := getAllContacts_client env resend p contacts hres
  have hsends : (broadcastEmail env resend p subject body fromEmail fromName).trace.filter
      Event.isSend =
        (batchEmails contacts (fromField fromEmail fromName) subject body).map
          Event.emailsSend := by
    rw [broadcastEmail_eq env resend p subject body fromEmail fromName contacts hres hne]
    simp only [List.filter_append, List.filter_cons, Event.isSend, sendEvents_sends]
    have hnone : (resolutionEvents p).filter Event.isSend = [] := by
      rw [List.filter_eq_nil_iff]
      intro e he
      rw [resolutionEvents_not_send p e he]
      simp
    rw [hnone]
    simp
  have hres_k : resultOfSend p k
      (Email.mk (fromField fromEmail fromName) c.email subject body) =
        thrownResult c.email err := by
    unfold resultOfSend
    rw [hthrow]
  rw [broadcastEmail_eq env resend p subject body fromEmail fromName contacts hres hne]
    at hsends ⊢
  refine ⟨_, _, thrownResult c.email err, rfl, rfl, ?_, ?_, rfl, rfl, rfl, ?_, hsends, ?_⟩
  · rw [sendResults_length, batchEmails_length]
  · rw [sendResults_getElem?, batchEmails_getElem?, hk, Option.map_some', Option.map_some',
      hres_k]
  · rw [sendResults_emails, batchEmails_to]
    apply List.count_eq_one_of_mem
    · rw [getAllContacts_result env resend p contacts hres]
      exact uniqueContacts_nodup _
    · exact List.mem_map_of_mem Contact.email (List.getElem?_mem hk)
  · intro j d _ hj
    have hmem : Event.emailsSend
        (Email.mk (fromField fromEmail fromName) d.email subject body) ∈
        (batchEmails contacts (fromField fromEmail fromName) subject body).map
          Event.emailsSend := by
      apply List.mem_map_of_mem
      unfold batchEmails
      exact List.mem_map_of_mem _ (List.getElem?_mem hj)
    rw [← hsends] at hmem
    exact (List.mem_filter.1 hmem).1

/-- Witness of C3: with `exampleProvider` the send call for the second of the three
resolved contacts (`bob`) throws. -/
theorem broadcastEmail_isolates_thrown_send_witness :
    (getAllContacts exampleEnv false exampleProvider).result =
        Except.ok [aliceAgain, bob, carol]
    ∧ Event.emailsSend (Email.mk "a@b.com" carol.email "Hi" "<p>x</p>") ∈
        (broadcastEmail exampleEnv false exampleProvider "Hi" "<p>x</p>" "a@b.com"
          none).trace := by
  refine ⟨rfl, ?_⟩
  obtain ⟨o, rs, res, -, -, -, -, -, -, -, -, -, hafter⟩ :=
    broadcastEmail_isolates_thrown_send exampleEnv false exampleProvider "Hi" "<p>x</p>"
      "a@b.com" none [aliceAgain, bob, carol] 1 bob (mkError "socket hang up") rfl rfl rfl
  exact hafter 2 carol (by decide) rfl

/-- C4: for every non-empty resolved contact sequence of length `n` and every behaviour
of the send calls, `broadcastEmail` resolves to an outcome with `success = true`,
`total = n`, `n` results whose emails are those of the contacts in order, `sent` the
number of results with status `success` and `failed` the number with status `failed`,
so that `sent + failed = total`; when every send call returns the usual success shape
(no error, an identifier in `data.id`), `sent = n` and `failed = 0`. -/
theorem broadcastEmail_counts_results (env : Env) (resend : Bool) (p : Provider)
    (subject body fromEmail : String) (fromName : Option String)
    (contacts : List Contact)
    (hres : (getAllContacts env resend p).result = Except.ok contacts)
    (hne : contacts ≠ []) :
    ∃ o rs,
      (broadcastEmail env resend p subject body fromEmail fromName).result = Except.ok o
      ∧ o.success = true
      ∧ o.total = contacts.length
      ∧ o.results = some rs
      ∧ rs.length = contacts.length
      ∧ rs.map SendResult.email = contacts.map Contact.email
      ∧ o.sent = countStatus Status.success rs
      ∧ o.failed = some (countStatus Status.failed rs)
      ∧ o.sent + countStatus Status.failed rs = o.total
      ∧ ((∀ i email, ∃ r, p.emailsSend i email = CallResult.returned r ∧
            r.error.truthy = false ∧ (r.data.optField "id").truthy = true) →
          o.sent = contacts.length ∧ o.failed = some 0) := by
  rw [broadcastEmail_eq env resend p subject body fromEmail fromName contacts hres hne]
  refine ⟨_, _, rfl, rfl, rfl, rfl, ?_, ?_, rfl, rfl, ?_, ?_⟩
  · rw [sendResults_length, batchEmails_length]
  · rw [sendResults_emails, batchEmails_to]
  · simp only
    rw [countStatus_total, sendResults_length, batchEmails_length]
  · intro hall
    have hsucc : ∀ r ∈ sendResults p
        (batchEmails contacts (fromField fromEmail fromName) subject body),
        r.status = Status.success := by
      intro r hr
      unfold sendResults at hr
      rw [List.mem_map] at hr
      obtain ⟨x, -, hx⟩ := hr
      obtain ⟨resp, hresp, herr, hid⟩ := hall x.1 x.2
      rw [← hx]
      unfold resultOfSend
      rw [hresp]
      simp [classifyByPriority, recognizedId, herr, hid]
    have hfail : countStatus Status.failed (sendResults p
        (batchEmails contacts (fromField fromEmail fromName) subject body)) = 0 := by
      unfold countStatus
      rw [List.countP_eq_zero]
      intro r hr
      rw [hsucc r hr]
      decide
    have htot := countStatus_total (sendResults p
        (batchEmails contacts (fromField fromEmail fromName) subject body))
    rw [hfail, sendResults_length, batchEmails_length] at htot
    simp only
    constructor
    · omega
    · rw [hfail]

/-- Witness of C4: with `exampleProvider` three contacts are resolved. -/
theorem broadcastEmail_counts_results_witness :
    (getAllContacts exampleEnv false exampleProvider).result =
        Except.ok [aliceAgain, bob, carol]
    ∧ ∃ o, (broadcastEmail exampleEnv false exampleProvider "Hi" "<p>x</p>" "a@b.com"
        none).result = Except.ok o ∧ o.total = 3 := by
  refine ⟨rfl, ?_⟩
  obtain ⟨o, rs, ho, -, htotal, -⟩ :=
    broadcastEmail_counts_results exampleEnv false exampleProvider "Hi" "<p>x</p>"
      "a@b.com" none [aliceAgain, bob, carol] rfl (by decide)
  exact ⟨o, ho, htotal⟩

/-! ## Resolution never fails -/

theorem filter_isListCall_call {α : Type} (call : Event) (r : CallResult α)
    (hcall : call.isListCall = true) :
    (eventsOfListCall call r).filter Event.isListCall = [call] := by
  have hdelay : (Event.delay pacing).isListCall = false := rfl
  unfold eventsOfListCall
  split
  · rw [List.filter_cons, hcall, if_pos rfl, List.filter_cons, hdelay]
    rfl
  · rw [List.filter_cons, hcall, if_pos rfl]
    rfl

theorem filter_isListCall_audiences (p : Provider) (l : List (Nat × Audience)) :
    (l.flatMap (fun x => eventsOfListCall (Event.contactsList (some x.2.id))
        (p.contactsList x.1 (some x.2.id)))).filter Event.isListCall =
      l.map (fun x => Event.contactsList (some x.2.id)) := by
  induction l with
  | nil => rfl
  | cons x rest ih =>
    rw [List.flatMap_cons, List.filter_append, ih, List.map_cons,
      filter_isListCall_call (Event.contactsList (some x.2.id)) _ rfl]
    rfl

theorem resolutionEvents_listCalls (p : Provider) (hne : listedAudiences p ≠ []) :
    (resolutionEvents p).filter Event.isListCall =
      Event.audiencesList ::
        (listedAudiences p).map (fun a => Event.contactsList (some a.id)) := by
  unfold resolutionEvents
  rw [List.filter_append, filter_isListCall_call Event.audiencesList _ rfl, if_neg hne,
    filter_isListCall_audiences]
  have h : (fun x : Nat × Audience => Event.contactsList (some x.2.id)) =
      (fun a : Audience => Event.contactsList (some a.id)) ∘ Prod.snd := rfl
  rw [h, ← List.map_map, List.enumFrom_map_snd]
  rfl

theorem listedAudiences_of_threw (p : Provider)
    (h : p.audiencesList.isReturned = false) : listedAudiences p = [] := by
  unfold listedAudiences
  cases hp : p.audiencesList with
  | threw err => rfl
  | returned data => rw [hp] at h; simp [CallResult.isReturned] at h

/-- C7: once the client is constructed, `getAllContacts` raises no error whatever the
list calls do: it resolves to the deduplication of the contacts accumulated from the
calls that succeeded.  A per-audience call that throws contributes no contact, and with
at least one audience a contact-list call is issued for every audience, in listing
order.  When the audience-list call throws or yields no audience and the direct call
throws too, the result is the empty sequence. -/
theorem getAllContacts_resolves_despite_failures (env : Env) (resend : Bool)
    (p : Provider) (hc : getResendClient env resend = Except.ok true) :
    (getAllContacts env resend p).result =
        Except.ok (uniqueContacts (accumulatedContacts p))
    ∧ (∀ k audience err, p.contactsList k (some audience.id) = CallResult.threw err →
        audienceContribution p k audience = [])
    ∧ (listedAudiences p ≠ [] →
        accumulatedContacts p = (List.enumFrom 0 (listedAudiences p)).flatMap
            (fun x => audienceContribution p x.1 x.2)
        ∧ (getAllContacts env resend p).trace.filter Event.isListCall =
            Event.audiencesList ::
              (listedAudiences p).map (fun a => Event.contactsList (some a.id)))
    ∧ ((p.audiencesList.isReturned = false ∨ listedAudiences p = []) →
        (p.contactsList 0 none).isReturned = false →
        (getAllContacts env resend p).result = Except.ok []) := by
  rw [getAllContacts_eq env resend p hc]
  refine ⟨rfl, ?_, ?_, ?_⟩
  · intro k audience err h
    unfold audienceContribution
    rw [h]
  · intro hne
    refine ⟨?_, resolutionEvents_listCalls p hne⟩
    unfold accumulatedContacts
    rw [if_neg hne]
  · intro hempty hdirect
    have haud : listedAudiences p = [] := by
      rcases hempty with h | h
      · exact listedAudiences_of_threw p h
      · exact h
    have hacc : accumulatedContacts p = [] := by
      unfold accumulatedContacts directContribution
      rw [if_pos haud]
      cases hd : p.contactsList 0 none with
      | threw err => rfl
      | returned data => rw [hd] at hdirect; simp [CallResult.isReturned] at hdirect
    simp only [hacc]
    rfl

/-- Witness of C7: with `exampleEnv` the client can be constructed. -/
theorem getAllContacts_resolves_despite_failures_witness :
    getResendClient exampleEnv false = Except.ok true
    ∧ (getAllContacts exampleEnv false failingProvider).result = Except.ok [] :=
  ⟨rfl, (getAllContacts_resolves_despite_failures exampleEnv false failingProvider
    rfl).2.2.2 (Or.inl rfl) rfl⟩

/-! ## Pacing delays of the resolution -/

theorem countP_isDelay_call {α : Type} (call : Event) (r : CallResult α)
    (hcall : call.isDelay = false) :
    (eventsOfListCall call r).countP Event.isDelay = if r.isReturned then 1 else 0 := by
  have hdelay : (Event.delay pacing).isDelay = true := rfl
  unfold eventsOfListCall
  split
  · rw [List.countP_cons, hcall, List.countP_cons, hdelay]
    rfl
  · rw [List.countP_cons, hcall]
    rfl

theorem countP_isDelay_audiences (p : Provider) (l : List (Nat × Audience)) :
    (l.flatMap (fun x => eventsOfListCall (Event.contactsList (some x.2.id))
        (p.contactsList x.1 (some x.2.id)))).countP Event.isDelay =
      l.countP (fun x => (p.contactsList x.1 (some x.2.id)).isReturned) := by
  induction l with
  | nil => rfl
  | cons x rest ih =>
    rw [List.flatMap_cons, List.countP_append, ih, List.countP_cons,
      countP_isDelay_call (Event.contactsList (some x.2.id)) _ rfl]
    omega

theorem resolutionEvents_delays (p : Provider) :
    (resolutionEvents p).countP Event.isDelay = returnedListCalls p := by
  unfold resolutionEvents returnedListCalls
  rw [List.countP_append, countP_isDelay_call Event.audiencesList _ rfl]
  by_cases h : listedAudiences p = []
  · rw [if_pos h, if_pos h, countP_isDelay_call (Event.contactsList none) _ rfl]
  · rw [if_neg h, if_neg h, countP_isDelay_audiences]

/-- C9 at the failing input: with `failingProvider` the audience-list call and the
direct contact-list call both throw; two list calls are issued and no pacing delay is
applied, because the delays of lines 32 and 77 are awaited inside the `try` blocks. -/
theorem getAllContacts_thrown_calls_without_delay :
    (getAllContacts exampleEnv false failingProvider).trace =
        [Event.audiencesList, Event.contactsList none]
    ∧ (getAllContacts exampleEnv false failingProvider).trace.countP Event.isListCall = 2
    ∧ (getAllContacts exampleEnv false failingProvider).trace.countP Event.isDelay = 0
    ∧ ¬ ((getAllContacts exampleEnv false failingProvider).trace.countP Event.isDelay =
          (getAllContacts exampleEnv false failingProvider).trace.countP
            Event.isListCall) := by
  decide

/-- Effects of the resolution in closed form: once the client is constructed, the effects
of `getAllContacts` are its list calls in order, each followed by one pacing delay
exactly when it returned; so the number of pacing delays is the number of list calls
that returned, and never exceeds the number of list calls. -/
theorem getAllContacts_delay_after_each_returned_call (env : Env) (resend : Bool)
    (p : Provider) (hc : getResendClient env resend = Except.ok true) :
    (getAllContacts env resend p).trace = resolutionEvents p
    ∧ (getAllContacts env resend p).trace.countP Event.isDelay = returnedListCalls p
    ∧ (getAllContacts env resend p).trace.countP Event.isDelay ≤
        (getAllContacts env resend p).trace.countP Event.isListCall := by
  rw [getAllContacts_eq env resend p hc]
  refine ⟨rfl, resolutionEvents_delays p, ?_⟩
  simp only
  by_cases h : listedAudiences p = []
  · have hcalls : (resolutionEvents p).countP Event.isListCall = 2 := by
      rw [List.countP_eq_length_filter]
      unfold resolutionEvents
      rw [List.filter_append, filter_isListCall_call Event.audiencesList _ rfl, if_pos h,
        filter_isListCall_call (Event.contactsList none) _ rfl]
      rfl
    rw [hcalls, resolutionEvents_delays]
    unfold returnedListCalls
    rw [if_pos h]
    split <;> split <;> omega
  · have hcalls : (resolutionEvents p).countP Event.isListCall =
        1 + (listedAudiences p).length := by
      rw [List.countP_eq_length_filter, resolutionEvents_listCalls p h]
      simp
      omega
    rw [hcalls, resolutionEvents_delays]
    unfold returnedListCalls
    rw [if_neg h]
    have hle := List.countP_le_length
      (fun x : Nat × Audience => (p.contactsList x.1 (some x.2.id)).isReturned)
      (l := List.enumFrom 0 (listedAudiences p))
    rw [List.enumFrom_length] at hle
    split <;> omega

/-- An instance of `getAllContacts_delay_after_each_returned_call`: with
`exampleProvider` all three list calls return and three pacing delays are applied. -/
theorem getAllContacts_delay_after_each_returned_call_example :
    getResendClient exampleEnv false = Except.ok true
    ∧ (getAllContacts exampleEnv false exampleProvider).trace.countP Event.isDelay =
        returnedListCalls exampleProvider :=
  ⟨rfl, (getAllContacts_delay_after_each_returned_call exampleEnv false exampleProvider
    rfl).2.1⟩

/-! ## Pacing delays of the send loop -/

theorem countP_index_lt (m : Nat) (emails : List Email) :
    ∀ i, (List.enumFrom i emails).countP (fun x => decide (x.1 < m)) =
      min (i + emails.length) m - min i m := by
  induction emails with
  | nil => intro i; simp
  | cons e rest ih =>
    intro i
    rw [List.enumFrom_cons, List.countP_cons, ih (i + 1), List.length_cons]
    by_cases h : i < m
    · simp only [h, decide_True, if_true]
      omega
    · simp only [h, decide_False, Bool.false_eq_true, if_false]
      omega

/-- C8 at the failing input: with `exampleProvider` three contacts are resolved and the
second send call throws; the delay of lines 212-214 is awaited inside the `try`, so no
pacing delay lies between the second and the third send, and one delay, not two,
follows the first send. -/
theorem broadcastEmail_thrown_send_without_delay :
    (getAllContacts exampleEnv false exampleProvider).result =
        Except.ok [aliceAgain, bob, carol]
    ∧ fromFirstSend (broadcastEmail exampleEnv false exampleProvider "Hi" "<p>x</p>"
        "a@b.com" none).trace =
        [Event.emailsSend (Email.mk "a@b.com" "alice@example.com" "Hi" "<p>x</p>"),
         Event.delay 600,
         Event.emailsSend (Email.mk "a@b.com" "bob@example.com" "Hi" "<p>x</p>"),
         Event.emailsSend (Email.mk "a@b.com" "carol@example.com" "Hi" "<p>x</p>")]
    ∧ ¬ ((fromFirstSend (broadcastEmail exampleEnv false exampleProvider "Hi" "<p>x</p>"
        "a@b.com" none).trace).countP Event.isDelay = 3 - 1) := by
  refine ⟨rfl, by decide, by decide⟩

/-- Effects of the send phase in closed form: for every non-empty resolved contact
sequence of length `n`, `broadcastEmail` applies one pacing delay before the first
send; the `n` send calls follow in order, each followed by one pacing delay exactly when
it returned and is not the last; no delay follows the final send; and when no send call
throws, exactly `n - 1` delays follow the sends. -/
theorem broadcastEmail_delay_after_each_returned_send (env : Env) (resend : Bool)
    (p : Provider) (subject body fromEmail : String) (fromName : Option String)
    (contacts : List Contact)
    (hres : (getAllContacts env resend p).result = Except.ok contacts)
    (hne : contacts ≠ []) :
    (broadcastEmail env resend p subject body fromEmail fromName).trace =
        (getAllContacts env resend p).trace ++ Event.delay pacing ::
          sendEvents p (batchEmails contacts (fromField fromEmail fromName) subject body)
    ∧ (sendEvents p (batchEmails contacts (fromField fromEmail fromName) subject
        body)).filter Event.isSend =
        (batchEmails contacts (fromField fromEmail fromName) subject body).map
          Event.emailsSend
    ∧ (sendEvents p (batchEmails contacts (fromField fromEmail fromName) subject
        body)).countP Event.isDelay =
        (List.enumFrom 0 (batchEmails contacts (fromField fromEmail fromName) subject
          body)).countP (fun x =>
            (p.emailsSend x.1 x.2).isReturned && decide (x.1 < contacts.length - 1))
    ∧ (∃ email, (sendEvents p (batchEmails contacts (fromField fromEmail fromName)
        subject body)).getLast? = some (Event.emailsSend email))
    ∧ ((∀ i email, (p.emailsSend i email).isReturned = true) →
        (sendEvents p (batchEmails contacts (fromField fromEmail fromName) subject
          body)).countP Event.isDelay = contacts.length - 1) := by
  have hc := getAllContacts_client env resend p contacts hres
  have hemails : batchEmails contacts (fromField fromEmail fromName) subject body ≠ [] := by
    intro h
    apply hne
    have hl := batchEmails_length contacts (fromField fromEmail fromName) subject body
    rw [h] at hl
    exact List.length_eq_zero.1 hl.symm
  have hcount : (sendEvents p (batchEmails contacts (fromField fromEmail fromName) subject
      body)).countP Event.isDelay =
      (List.enumFrom 0 (batchEmails contacts (fromField fromEmail fromName) subject
        body)).countP (fun x =>
          (p.emailsSend x.1 x.2).isReturned && decide (x.1 < contacts.length - 1)) := by
    unfold sendEvents
    rw [countP_isDelay_events, batchEmails_length]
  refine ⟨?_, sendEvents_sends p _, hcount, sendEvents_last p _ hemails, ?_⟩
  · rw [broadcastEmail_eq env resend p subject body fromEmail fromName contacts hres hne,
      getAllContacts_eq env resend p hc]
  · intro hall
    rw [hcount]
    have hfun : (fun x : Nat × Email =>
        (p.emailsSend x.1 x.2).isReturned && decide (x.1 < contacts.length - 1)) =
        (fun x : Nat × Email => decide (x.1 < contacts.length - 1)) := by
      funext x
      rw [hall x.1 x.2, Bool.true_and]
    rw [hfun, countP_index_lt, batchEmails_length]
    omega

/-- An instance of `broadcastEmail_delay_after_each_returned_send`: with
`exampleProvider` three contacts are resolved and the last effect is a send call. -/
theorem broadcastEmail_delay_after_each_returned_send_example :
    (getAllContacts exampleEnv false exampleProvider).result =
        Except.ok [aliceAgain, bob, carol]
    ∧ ∃ email, (sendEvents exampleProvider (batchEmails [aliceAgain, bob, carol]
        (fromField "a@b.com" none) "Hi" "<p>x</p>")).getLast? =
          some (Event.emailsSend email) :=
  ⟨rfl, (broadcastEmail_delay_after_each_returned_send exampleEnv false exampleProvider
    "Hi" "<p>x</p>" "a@b.com" none [aliceAgain, bob, carol] rfl (by decide)).2.2.2.1⟩

/-! ## Interpretation of contact-list responses -/

/-- The response of a per-audience call is read by the rule of the specification,
whatever its shape. -/
theorem pushAudienceContacts_follows_rule (data : Payload Contact) :
    pushAudienceContacts data [] = interpretListResponse data := by
  rw [pushAudienceContacts_eq, List.nil_append]

/-- C10 at the failing input: a response whose contacts sit in the member
`data.contacts` yields that contact by the rule and on the per-audience path, but no
contact on the direct path, so the resolution with `namedFieldProvider` is empty. -/
theorem pushDirectContacts_ignores_named_member :
    interpretListResponse (Payload.object (Slot.other false) (Slot.array [alice])) =
        [alice]
    ∧ pushAudienceContacts (Payload.object (Slot.other false) (Slot.array [alice])) [] =
        [alice]
    ∧ pushDirectContacts (Payload.object (Slot.other false) (Slot.array [alice])) [] = []
    ∧ (getAllContacts exampleEnv false namedFieldProvider).result = Except.ok [] := by
  refine ⟨rfl, rfl, rfl, rfl⟩

end Broadcast
